import Mathlib

/-!
Shallow embedding of the amortization simulation engine of the
AI debt-management repository (`calculatePaymentPlan` in the payment-plan
component), together with proofs of the spec's testable properties.

Monetary values are modelled as exact rationals (the source uses JS
numbers with no rounding inside the loop); the iteration cap, the
per-month minimum-payment pass, the strategy-directed extra payment and
the record bookkeeping are translated statement by statement from the
source.  JS `Array.prototype.sort` with a consistent comparator is a
stable sort; it is modelled by a stable insertion sort over
(index, debt) pairs, the index standing for the object identity of the
array element that the source mutates through the sorted reference.
-/

namespace DebtPlan

/-- An input debt (the `Debt` interface of the source). -/
structure Debt where
  id : Nat
  name : String
  balance : ℚ
  interestRate : ℚ
  minimumPayment : ℚ
deriving DecidableEq

/-- The mutable per-debt simulation state the engine clones from each
input debt (`workingDebts` in the source). -/
structure WorkingDebt where
  id : Nat
  name : String
  balance : ℚ
  interestRate : ℚ
  minimumPayment : ℚ
  remainingBalance : ℚ
  isPaidOff : Bool
deriving DecidableEq

/-- The clone made at the start of one run (source lines 41-45). -/
def initWorking (d : Debt) : WorkingDebt :=
  { id := d.id, name := d.name, balance := d.balance,
    interestRate := d.interestRate, minimumPayment := d.minimumPayment,
    remainingBalance := d.balance, isPaidOff := false }

/-- Projection back from the working clone to the input fields. -/
def workingToDebt (w : WorkingDebt) : Debt :=
  { id := w.id, name := w.name, balance := w.balance,
    interestRate := w.interestRate, minimumPayment := w.minimumPayment }

/-- One per-debt per-month payment record (an element of the
`payments` array of a `MonthlyPayment`). -/
structure PaymentRecord where
  debtId : Nat
  amount : ℚ
  remainingBalance : ℚ
  isPaidOff : Bool
deriving DecidableEq

/-- One month of the schedule (the `MonthlyPayment` interface). -/
structure MonthlyPayment where
  month : Nat
  payments : List PaymentRecord
  totalRemaining : ℚ
  totalPaid : ℚ
  totalInterestPaid : ℚ
deriving DecidableEq

/-- The four prioritization strategies. -/
inductive Strategy where
  | avalanche
  | snowball
  | highestPaymentFirst
  | lowestPaymentFirst
deriving DecidableEq

/-- The minimum-payment pass for a single debt (source lines 59-95):
returns the updated debt, its payment record, and the interest portion
of the payment.  An already-paid-off debt gets a zero record. -/
def payMinimumOne (d : WorkingDebt) : WorkingDebt × PaymentRecord × ℚ :=
  if d.isPaidOff then
    (d, { debtId := d.id, amount := 0, remainingBalance := 0, isPaidOff := true }, 0)
  else
    let monthlyInterestRate := d.interestRate / 100 / 12
    let interestThisMonth := d.remainingBalance * monthlyInterestRate
    let paymentAmount := min d.minimumPayment (d.remainingBalance + interestThisMonth)
    let principalPayment := max 0 (paymentAmount - interestThisMonth)
    let interestPayment := paymentAmount - principalPayment
    let newBalance := max 0 (d.remainingBalance - principalPayment)
    let paid := decide (newBalance = 0)
    ({ d with remainingBalance := newBalance, isPaidOff := paid },
     { debtId := d.id, amount := paymentAmount, remainingBalance := newBalance,
       isPaidOff := paid },
     interestPayment)

/-- The minimum-payment pass over all working debts, in input order
(the `forEach` of source lines 59-95): updated debts, the month's
records so far, and the total interest accrued this pass.  The amount
consumed from the budget is the sum of the record amounts. -/
def minimumPass (ds : List WorkingDebt) : List WorkingDebt × List PaymentRecord × ℚ :=
  (ds.map fun d => (payMinimumOne d).1,
   ds.map fun d => (payMinimumOne d).2.1,
   (ds.map fun d => (payMinimumOne d).2.2).sum)

/-- Comparator of the strategy `switch` (source lines 106-119), as the
boolean relation "a may come no later than b" of the stable sort. -/
def debtLE (s : Strategy) (a b : WorkingDebt) : Bool :=
  match s with
  | .avalanche => decide (b.interestRate ≤ a.interestRate)
  | .snowball => decide (a.remainingBalance ≤ b.remainingBalance)
  | .highestPaymentFirst => decide (b.minimumPayment ≤ a.minimumPayment)
  | .lowestPaymentFirst => decide (a.minimumPayment ≤ b.minimumPayment)

/-- The comparator lifted to (index, debt) pairs; the index models the
object identity of the array element. -/
def pairLE (s : Strategy) (a b : Nat × WorkingDebt) : Bool :=
  debtLE s a.2 b.2

/-- Stable insertion of one element into an already sorted list. -/
def orderedInsertBy {α : Type} (le : α → α → Bool) (x : α) : List α → List α
  | [] => [x]
  | y :: ys => if le x y then x :: y :: ys else y :: orderedInsertBy le x ys

/-- Stable sort (extensionally the JS stable `Array.prototype.sort`
for a consistent comparator). -/
def sortBy {α : Type} (le : α → α → Bool) : List α → List α
  | [] => []
  | x :: xs => orderedInsertBy le x (sortBy le xs)

/-- Pair each list element with its position. -/
def withIdx {α : Type} : Nat → List α → List (Nat × α)
  | _, [] => []
  | n, a :: as => (n, a) :: withIdx (n + 1) as

/-- The target of the extra payment: head of the stably sorted active
list (`activeDebts.sort(...)[0]`, source lines 100-119). -/
def selectTarget (s : Strategy) (active : List (Nat × WorkingDebt)) :
    Option (Nat × WorkingDebt) :=
  (sortBy (pairLE s) active).head?

/-- Record update of source lines 128-133: add the extra payment to the
first record whose `debtId` matches the target's id. -/
def updateFirstRecord (tid : Nat) (extra newBal : ℚ) (paid : Bool) :
    List PaymentRecord → List PaymentRecord
  | [] => []
  | r :: rs =>
    if r.debtId = tid then
      { r with amount := r.amount + extra, remainingBalance := newBal, isPaidOff := paid } :: rs
    else
      r :: updateFirstRecord tid extra newBal paid rs

/-- The extra-payment phase (source lines 98-138): if leftover budget is
positive and an active debt exists, apply the strategy-selected extra
payment to that debt and to its record.  Returns the updated debts, the
updated records, and the extra amount paid. -/
def applyExtra (strategy : Strategy) (remainingBudget : ℚ)
    (debts : List WorkingDebt) (records : List PaymentRecord) :
    List WorkingDebt × List PaymentRecord × ℚ :=
  if 0 < remainingBudget then
    let active := (withIdx 0 debts).filter fun p => !p.2.isPaidOff
    match selectTarget strategy active with
    | some (i, t) =>
      let extraPayment := min remainingBudget t.remainingBalance
      let newBal := t.remainingBalance - extraPayment
      let paid := decide (newBal = 0)
      (debts.set i { t with remainingBalance := newBal, isPaidOff := paid },
       updateFirstRecord t.id extraPayment newBal paid records,
       extraPayment)
    | none => (debts, records, 0)
  else (debts, records, 0)

/-- `totalRemaining` of a month (source line 141). -/
def totalRemainingOf (ds : List WorkingDebt) : ℚ :=
  (ds.map fun d => d.remainingBalance).sum

/-- The whole simulation state of one run. -/
structure SimState where
  debts : List WorkingDebt
  month : Nat
  totalPaid : ℚ
  totalInterestPaid : ℚ
  schedule : List MonthlyPayment
deriving DecidableEq

/-- One iteration of the `while` loop (source lines 53-153): minimum
payments in input order, then the strategy-directed extra payment, then
the month snapshot is appended and the month counter advances. -/
def stepMonth (strategy : Strategy) (monthlyBudget : ℚ) (s : SimState) : SimState :=
  let r := minimumPass s.debts
  let debts1 := r.1
  let records1 := r.2.1
  let interestDelta := r.2.2
  let paidDelta := (records1.map fun p => p.amount).sum
  let remainingBudget := monthlyBudget - paidDelta
  let e := applyExtra strategy remainingBudget debts1 records1
  let totalPaid := s.totalPaid + paidDelta + e.2.2
  let totalInterestPaid := s.totalInterestPaid + interestDelta
  { debts := e.1,
    month := s.month + 1,
    totalPaid := totalPaid,
    totalInterestPaid := totalInterestPaid,
    schedule := s.schedule ++
      [{ month := s.month, payments := e.2.1,
         totalRemaining := totalRemainingOf e.1,
         totalPaid := totalPaid, totalInterestPaid := totalInterestPaid }] }

/-- The `while` loop with its fuel: the source condition
`workingDebts.some(!isPaidOff) && month <= 600` with `month` starting
at 1 executes at most 600 iterations, one per remaining unit of fuel. -/
def simLoop (strategy : Strategy) (monthlyBudget : ℚ) : Nat → SimState → SimState
  | 0, s => s
  | fuel + 1, s =>
    if s.debts.any fun d => !d.isPaidOff then
      simLoop strategy monthlyBudget fuel (stepMonth strategy monthlyBudget s)
    else s

/-- The values the component publishes after one run (source lines
155-158): the schedule, `totalMonths = schedule.length`, and the two
accumulated totals. -/
structure PlanResult where
  paymentSchedule : List MonthlyPayment
  totalMonths : Nat
  totalInterestPaid : ℚ
  totalPaid : ℚ
deriving DecidableEq

/-- The engine: `calculatePaymentPlan` of the source (lines 39-159). -/
def calculatePaymentPlan (debts : List Debt) (monthlyBudget : ℚ)
    (strategy : Strategy) : PlanResult :=
  let final := simLoop strategy monthlyBudget 600
    { debts := debts.map initWorking, month := 1,
      totalPaid := 0, totalInterestPaid := 0, schedule := [] }
  { paymentSchedule := final.schedule,
    totalMonths := final.schedule.length,
    totalInterestPaid := final.totalInterestPaid,
    totalPaid := final.totalPaid }

/-- Sum of the `amount` fields of one month's records. -/
def amountSum (m : MonthlyPayment) : ℚ :=
  (m.payments.map fun p => p.amount).sum

/-- Sum of all `amount` fields over a list of months. -/
def schedAmountSum (sched : List MonthlyPayment) : ℚ :=
  (sched.map amountSum).sum

/-- A run reaches full payoff when some month of its schedule records
every debt as paid off. -/
def reachesFullPayoff (r : PlanResult) : Prop :=
  ∃ snap ∈ r.paymentSchedule, ∀ rec ∈ snap.payments, rec.isPaidOff = true

/-- Observation of a run used by the cap counterexamples: total months,
whether every month still has an unpaid record, the final month's
remaining total, and whether the final month records everything paid. -/
def probe (r : PlanResult) : Nat × Bool × Option ℚ × Option Bool :=
  (r.totalMonths,
   r.paymentSchedule.all fun snap => snap.payments.any fun rec => !rec.isPaidOff,
   r.paymentSchedule.getLast?.map fun s => s.totalRemaining,
   r.paymentSchedule.getLast?.map fun s => s.payments.all fun rec => rec.isPaidOff)

/-- A record mirrors a working debt: same id, same balance, same flag. -/
def Align (d : WorkingDebt) (r : PaymentRecord) : Prop :=
  r.debtId = d.id ∧ r.remainingBalance = d.remainingBalance ∧ r.isPaidOff = d.isPaidOff

/-- Well-formed working debt: non-negative balance, and a set paid-off
flag means the balance is exactly zero. -/
def Ok (d : WorkingDebt) : Prop :=
  0 ≤ d.remainingBalance ∧ (d.isPaidOff = true → d.remainingBalance = 0)

/-- One debt evolving by one month: the balance never grows and the
paid-off flag never reverts. -/
def Mono (a b : WorkingDebt) : Prop :=
  b.remainingBalance ≤ a.remainingBalance ∧ (a.isPaidOff = true → b.isPaidOff = true)

/-- Adjacent months of the schedule, record by record: balances do not
increase and paid-off flags do not revert. -/
def recStep (a b : MonthlyPayment) : Prop :=
  List.Forall₂
    (fun ra rb => rb.remainingBalance ≤ ra.remainingBalance ∧
      (ra.isPaidOff = true → rb.isPaidOff = true))
    a.payments b.payments

/-- Loop invariant for claim C6: the running `totalPaid` equals the sum
of every recorded amount, and each emitted snapshot stores the sum of
all amounts up to and including its own month. -/
def InvC6 (s : SimState) : Prop :=
  s.totalPaid = schedAmountSum s.schedule ∧
  ∀ (k : Nat) (snap : MonthlyPayment), s.schedule[k]? = some snap →
    snap.totalPaid = schedAmountSum (s.schedule.take (k + 1))

/-- Loop invariant for claim C10: minimum payments of the working set
never change, and every emitted month spends at most the budget. -/
def InvC10 (orig : List Debt) (b : ℚ) (s : SimState) : Prop :=
  (s.debts.map fun d => d.minimumPayment) = (orig.map fun d => d.minimumPayment) ∧
  ∀ snap ∈ s.schedule, amountSum snap ≤ b

/-- Loop invariant for claim C5: ids are stable, working debts stay
well formed, the emitted schedule is month-to-month monotone with
correct ids and flag semantics, and the last snapshot mirrors the
current working debts. -/
def InvC5 (orig : List Debt) (s : SimState) : Prop :=
  (s.debts.map fun d => d.id) = (orig.map fun d => d.id) ∧
  (∀ d ∈ s.debts, Ok d) ∧
  List.Chain' recStep s.schedule ∧
  (∀ snap ∈ s.schedule,
    (snap.payments.map fun r => r.debtId) = (orig.map fun d => d.id) ∧
    ∀ r ∈ snap.payments, r.isPaidOff = true → r.remainingBalance = 0) ∧
  ∀ snap, s.schedule.getLast? = some snap → List.Forall₂ Align s.debts snap.payments

end DebtPlan

namespace DebtPlan

lemma workingToDebt_initWorking (d : Debt) : workingToDebt (initWorking d) = d := rfl

lemma stepMonth_schedule_length (strategy : Strategy) (b : ℚ) (s : SimState) :
    (stepMonth strategy b s).schedule.length = s.schedule.length + 1 := by
  simp [stepMonth]

lemma simLoop_length_le (strategy : Strategy) (b : ℚ) :
    ∀ (f : Nat) (s : SimState),
      (simLoop strategy b f s).schedule.length ≤ s.schedule.length + f := by
  intro f
  induction f with
  | zero => intro s; simp [simLoop]
  | succ n ih =>
    intro s
    rw [simLoop]
    split
    · calc (simLoop strategy b n (stepMonth strategy b s)).schedule.length
          ≤ (stepMonth strategy b s).schedule.length + n := ih _
        _ = s.schedule.length + (n + 1) := by
            rw [stepMonth_schedule_length]; omega
    · omega

/-- Claim C1 (amended): for every input the engine stops after at most
600 simulated months; the hard iteration cap bounds the schedule, but
full payoff inside the cap is not guaranteed (see the counterexample). -/
theorem c1_cap (debts : List Debt) (b : ℚ) (strategy : Strategy) :
    (calculatePaymentPlan debts b strategy).totalMonths ≤ 600 ∧
    (calculatePaymentPlan debts b strategy).paymentSchedule.length ≤ 600 := by
  have h := simLoop_length_le strategy b 600
    { debts := debts.map initWorking, month := 1,
      totalPaid := 0, totalInterestPaid := 0, schedule := [] }
  exact ⟨by simpa [calculatePaymentPlan] using h, by simpa [calculatePaymentPlan] using h⟩

/-- Claim C1 (amended) has universally quantified non-propositional
binders only, but we still record a concrete instantiation. -/
theorem c1_cap_witness :
    (calculatePaymentPlan [⟨1, "w", 100, 0, 100⟩] 100 .avalanche).totalMonths ≤ 600 ∧
    (calculatePaymentPlan [⟨1, "w", 100, 0, 100⟩] 100 .avalanche).paymentSchedule.length ≤ 600 :=
  c1_cap [⟨1, "w", 100, 0, 100⟩] 100 .avalanche

/-- Claim C9: the engine is a pure function of its three arguments -
identical inputs give identical results, and the caller's debt values
survive a run unchanged: the engine only clones them (`initWorking`,
source line 41) and the clone still projects back to the original. -/
theorem c9_pure (debts : List Debt) (b : ℚ) (strategy : Strategy) :
    calculatePaymentPlan debts b strategy = calculatePaymentPlan debts b strategy ∧
    (debts.map initWorking).map workingToDebt = debts := by
  refine ⟨rfl, ?_⟩
  rw [List.map_map]
  have h : workingToDebt ∘ initWorking = id := funext fun d => rfl
  rw [h, List.map_id]

lemma c2run_eval :
    calculatePaymentPlan [⟨1, "A", 1200, 12, 1200⟩] 1200 .avalanche =
      ⟨[⟨1, [⟨1, 1200, 12, false⟩], 12, 1200, 12⟩,
        ⟨2, [⟨1, 303/25, 0, true⟩], 0, 30303/25, 303/25⟩],
       2, 303/25, 30303/25⟩ := by
  with_unfolding_all rfl

/-- Claim C2 is false on the code: for the single debt with balance
1200, rate 12, minimum 1200 and budget 1200, month 1 is not a payoff
month (the minimum payment 1200 is below balance plus interest 1212, so
a balance of 12 survives), and the totals are 12.12 and 1212.12, not
12.00 and 1212.00. -/
theorem c2_counterexample :
    ((calculatePaymentPlan [⟨1, "A", 1200, 12, 1200⟩] 1200 .avalanche).paymentSchedule.head?.map
      fun s => s.payments.all fun r => r.isPaidOff) = some false ∧
    (calculatePaymentPlan [⟨1, "A", 1200, 12, 1200⟩] 1200 .avalanche).totalMonths ≠ 1 ∧
    (calculatePaymentPlan [⟨1, "A", 1200, 12, 1200⟩] 1200 .avalanche).totalInterestPaid ≠ 12 ∧
    (calculatePaymentPlan [⟨1, "A", 1200, 12, 1200⟩] 1200 .avalanche).totalPaid ≠ 1212 := by
  rw [c2run_eval]
  refine ⟨rfl, by norm_num, by norm_num, by norm_num⟩

/-- Claim C2 (amended): scenario A pays off in month 2, not month 1.
Month 1 pays the full minimum 1200, leaving balance 12; month 2 pays
12.12 (clamped to balance plus interest); `totalInterestPaid = 12.12`
and `totalPaid = 1212.12`. -/
theorem c2_scenarioA :
    (calculatePaymentPlan [⟨1, "A", 1200, 12, 1200⟩] 1200 .avalanche).totalMonths = 2 ∧
    (calculatePaymentPlan [⟨1, "A", 1200, 12, 1200⟩] 1200 .avalanche).totalInterestPaid = 303/25 ∧
    (calculatePaymentPlan [⟨1, "A", 1200, 12, 1200⟩] 1200 .avalanche).totalPaid = 30303/25 ∧
    ((calculatePaymentPlan [⟨1, "A", 1200, 12, 1200⟩] 1200 .avalanche).paymentSchedule.map
      fun s => s.payments.map fun r => (r.amount, r.remainingBalance, r.isPaidOff)) =
      [[(1200, 12, false)], [(303/25, 0, true)]] := by
  rw [c2run_eval]
  exact ⟨rfl, rfl, rfl, rfl⟩

lemma c4run_eval :
    calculatePaymentPlan [⟨1, "X", -100, 0, 50⟩] 50 .avalanche =
      ⟨[⟨1, [⟨1, -100, 0, true⟩], 0, -100, -100⟩], 1, -100, -100⟩ := by
  with_unfolding_all rfl

lemma c4empty_eval :
    calculatePaymentPlan [] 100 .avalanche = ⟨[], 0, 0, 0⟩ := by
  with_unfolding_all rfl

/-- Claim C4 is false on the code: the engine performs no validation.
On a debt with negative balance it still produces a one-month schedule,
silently clamping the balance to 0 (and recording a negative payment)
instead of failing. -/
theorem c4_counterexample :
    (calculatePaymentPlan [⟨1, "X", -100, 0, 50⟩] 50 .avalanche).totalMonths = 1 ∧
    ((calculatePaymentPlan [⟨1, "X", -100, 0, 50⟩] 50 .avalanche).paymentSchedule.map
      fun s => s.totalRemaining) = [0] ∧
    (calculatePaymentPlan [⟨1, "X", -100, 0, 50⟩] 50 .avalanche).totalPaid = -100 := by
  rw [c4run_eval]
  exact ⟨rfl, rfl, rfl⟩

/-- Claim C4 (amended): the engine never fails and never reports a
validation error. An empty debt list yields the empty schedule with
zero totals, and a negative balance flows through the arithmetic: it is
clamped to 0 by the `max` floor in the first month, the debt is marked
paid off, and the recorded payment is negative. -/
theorem c4_no_validation :
    calculatePaymentPlan [] 100 .avalanche = ⟨[], 0, 0, 0⟩ ∧
    calculatePaymentPlan [⟨1, "X", -100, 0, 50⟩] 50 .avalanche =
      ⟨[⟨1, [⟨1, -100, 0, true⟩], 0, -100, -100⟩], 1, -100, -100⟩ :=
  ⟨c4empty_eval, c4run_eval⟩

lemma mem_orderedInsertBy {α : Type} (le : α → α → Bool) (x y : α) :
    ∀ (l : List α), y ∈ orderedInsertBy le x l ↔ y = x ∨ y ∈ l := by
  intro l
  induction l with
  | nil => simp [orderedInsertBy]
  | cons z zs ih =>
    by_cases h : le x z = true
    · simp [orderedInsertBy, h]
    · simp only [orderedInsertBy, if_neg h, List.mem_cons, ih]
      tauto

lemma mem_sortBy {α : Type} (le : α → α → Bool) (y : α) :
    ∀ (l : List α), y ∈ sortBy le l ↔ y ∈ l := by
  intro l
  induction l with
  | nil => simp [sortBy]
  | cons z zs ih => simp [sortBy, mem_orderedInsertBy, ih]

/-- Head of the stable descending-by-key sort: the first element of the
input attaining the maximal key. -/
lemma head_sortBy_desc {α : Type} (key : α → ℚ) :
    ∀ (l : List α), l ≠ [] →
      ∃ p l₁ l₂,
        (sortBy (fun a b => decide (key b ≤ key a)) l).head? = some p ∧
        l = l₁ ++ p :: l₂ ∧ (∀ q ∈ l, key q ≤ key p) ∧
        ∀ q ∈ l₁, key q < key p := by
  intro l
  induction l with
  | nil => intro h; exact absurd rfl h
  | cons x xs ih =>
    intro _
    cases xs with
    | nil =>
      refine ⟨x, [], [], rfl, rfl, ?_, by simp⟩
      intro q hq
      rcases List.mem_singleton.mp hq with rfl
      exact le_refl _
    | cons z zs =>
      obtain ⟨p, l₁, l₂, hh, hd, hmax, hstr⟩ := ih (List.cons_ne_nil z zs)
      obtain ⟨rest, hrest⟩ : ∃ rest,
          sortBy (fun a b => decide (key b ≤ key a)) (z :: zs) = p :: rest := by
        cases hs : sortBy (fun a b => decide (key b ≤ key a)) (z :: zs) with
        | nil => rw [hs] at hh; simp at hh
        | cons a as =>
          rw [hs] at hh
          simp only [List.head?_cons, Option.some.injEq] at hh
          exact ⟨as, by rw [hh]⟩
      by_cases hle : key p ≤ key x
      · refine ⟨x, [], z :: zs, ?_, rfl, ?_, by simp⟩
        · show (orderedInsertBy _ x (sortBy _ (z :: zs))).head? = some x
          rw [hrest]
          simp [orderedInsertBy, hle]
        · intro q hq
          rcases List.mem_cons.mp hq with rfl | h
          · exact le_refl _
          · exact le_trans (hmax q h) hle
      · have hxlt : key x < key p := not_le.mp hle
        refine ⟨p, x :: l₁, l₂, ?_, by rw [hd]; rfl, ?_, ?_⟩
        · show (orderedInsertBy _ x (sortBy _ (z :: zs))).head? = some p
          rw [hrest]
          simp [orderedInsertBy, hle]
        · intro q hq
          rcases List.mem_cons.mp hq with rfl | h
          · exact le_of_lt hxlt
          · exact hmax q h
        · intro q hq
          rcases List.mem_cons.mp hq with rfl | h
          · exact hxlt
          · exact hstr q h

lemma withIdx_mem_of_mem {α : Type} (x : α) :
    ∀ (l : List α) (n : Nat), x ∈ l → ∃ i, (i, x) ∈ withIdx n l := by
  intro l
  induction l with
  | nil => intro n h; simp at h
  | cons z zs ih =>
    intro n h
    rcases List.mem_cons.mp h with rfl | h
    · exact ⟨n, List.mem_cons_self _ _⟩
    · obtain ⟨i, hi⟩ := ih (n + 1) h
      exact ⟨i, List.mem_cons_of_mem _ hi⟩

/-- Claim C7: whenever leftover budget exists the engine hands the
extra payment to `selectTarget`, and under `avalanche` the selected
pair is an active debt of maximal interest rate that is the first such
debt in the original (filter-preserved) input order: every active debt
strictly before it has a strictly smaller rate, and no active debt has
a larger one. -/
theorem c7_avalanche_first_highest (debts : List WorkingDebt)
    (h : ∃ d ∈ debts, d.isPaidOff = false) :
    ∃ p l₁ l₂,
      selectTarget .avalanche ((withIdx 0 debts).filter fun q => !q.2.isPaidOff) = some p ∧
      (withIdx 0 debts).filter (fun q => !q.2.isPaidOff) = l₁ ++ p :: l₂ ∧
      (∀ q ∈ (withIdx 0 debts).filter fun q => !q.2.isPaidOff,
        q.2.interestRate ≤ p.2.interestRate) ∧
      ∀ q ∈ l₁, q.2.interestRate < p.2.interestRate := by
  have hne : (withIdx 0 debts).filter (fun q => !q.2.isPaidOff) ≠ [] := by
    obtain ⟨d, hd, hflag⟩ := h
    obtain ⟨i, hi⟩ := withIdx_mem_of_mem d debts 0 hd
    intro hemp
    have hmem : (i, d) ∈ (withIdx 0 debts).filter fun q => !q.2.isPaidOff :=
      List.mem_filter.mpr ⟨hi, by simp [hflag]⟩
    rw [hemp] at hmem
    simp at hmem
  exact head_sortBy_desc (fun q : Nat × WorkingDebt => q.2.interestRate) _ hne

/-- Witness for claim C7: two active debts with equal rate 5; the
theorem applies and selects the first of them. -/
theorem c7_witness :
    (∃ d ∈ [(⟨1, "A", 100, 5, 10, 100, false⟩ : WorkingDebt),
            ⟨2, "B", 200, 5, 20, 200, false⟩], d.isPaidOff = false) ∧
    (∃ p l₁ l₂,
      selectTarget .avalanche ((withIdx 0
        [(⟨1, "A", 100, 5, 10, 100, false⟩ : WorkingDebt),
         ⟨2, "B", 200, 5, 20, 200, false⟩]).filter fun q => !q.2.isPaidOff) = some p ∧
      (withIdx 0 [(⟨1, "A", 100, 5, 10, 100, false⟩ : WorkingDebt),
         ⟨2, "B", 200, 5, 20, 200, false⟩]).filter (fun q => !q.2.isPaidOff) =
        l₁ ++ p :: l₂ ∧
      (∀ q ∈ (withIdx 0 [(⟨1, "A", 100, 5, 10, 100, false⟩ : WorkingDebt),
         ⟨2, "B", 200, 5, 20, 200, false⟩]).filter fun q => !q.2.isPaidOff,
        q.2.interestRate ≤ p.2.interestRate) ∧
      ∀ q ∈ l₁, q.2.interestRate < p.2.interestRate) :=
  ⟨⟨_, List.mem_cons_self _ _, rfl⟩,
   c7_avalanche_first_highest _ ⟨_, List.mem_cons_self _ _, rfl⟩⟩

lemma payMinimumOne_id (d : WorkingDebt) : (payMinimumOne d).1.id = d.id := by
  unfold payMinimumOne
  split
  · rfl
  · rfl

lemma payMinimumOne_minimumPayment (d : WorkingDebt) :
    (payMinimumOne d).1.minimumPayment = d.minimumPayment := by
  unfold payMinimumOne
  split
  · rfl
  · rfl

lemma payMinimumOne_record_id (d : WorkingDebt) :
    (payMinimumOne d).2.1.debtId = d.id := by
  unfold payMinimumOne
  split
  · rfl
  · rfl

lemma payMinimumOne_align (d : WorkingDebt)
    (hok : d.isPaidOff = true → d.remainingBalance = 0) :
    Align (payMinimumOne d).1 (payMinimumOne d).2.1 := by
  unfold payMinimumOne Align
  split
  · next hpaid => exact ⟨rfl, (hok hpaid).symm, hpaid.symm⟩
  · exact ⟨rfl, rfl, rfl⟩

lemma payMinimumOne_mono (d : WorkingDebt) (h : 0 ≤ d.remainingBalance) :
    (payMinimumOne d).1.remainingBalance ≤ d.remainingBalance ∧
    0 ≤ (payMinimumOne d).1.remainingBalance := by
  unfold payMinimumOne
  split
  · exact ⟨le_refl _, h⟩
  · refine ⟨?_, le_max_left 0 _⟩
    exact max_le h (sub_le_self _ (le_max_left 0 _))

lemma payMinimumOne_flag_mono (d : WorkingDebt) (h : d.isPaidOff = true) :
    (payMinimumOne d).1.isPaidOff = true := by
  unfold payMinimumOne
  rw [if_pos h]
  exact h

lemma payMinimumOne_flag_zero (d : WorkingDebt)
    (hok : d.isPaidOff = true → d.remainingBalance = 0) :
    (payMinimumOne d).1.isPaidOff = true → (payMinimumOne d).1.remainingBalance = 0 := by
  unfold payMinimumOne
  split
  · exact fun h => hok h
  · exact fun h => of_decide_eq_true h

lemma payMinimumOne_ok (d : WorkingDebt) (h : Ok d) : Ok (payMinimumOne d).1 :=
  ⟨(payMinimumOne_mono d h.1).2, payMinimumOne_flag_zero d h.2⟩

lemma payMinimumOne_amount_le (d : WorkingDebt) (h : 0 ≤ d.minimumPayment) :
    (payMinimumOne d).2.1.amount ≤ d.minimumPayment := by
  unfold payMinimumOne
  split
  · exact h
  · exact min_le_left _ _

lemma forall2_map_self {α β : Type} (R : α → β → Prop) (f : α → β) :
    ∀ (l : List α), (∀ x ∈ l, R x (f x)) → List.Forall₂ R l (l.map f) := by
  intro l
  induction l with
  | nil => intro _; exact List.Forall₂.nil
  | cons x xs ih =>
    intro h
    exact List.Forall₂.cons (h x (List.mem_cons_self _ _))
      (ih fun y hy => h y (List.mem_cons_of_mem _ hy))

lemma forall2_trans {α β γ : Type} {R : α → β → Prop} {S : β → γ → Prop}
    {T : α → γ → Prop} (comp : ∀ a b c, R a b → S b c → T a c) :
    ∀ {l₁ : List α} {l₂ : List β} {l₃ : List γ},
      List.Forall₂ R l₁ l₂ → List.Forall₂ S l₂ l₃ → List.Forall₂ T l₁ l₃ := by
  intro l₁ l₂ l₃ h₁
  induction h₁ generalizing l₃ with
  | nil => intro h₂; cases h₂; exact List.Forall₂.nil
  | cons hr _ ih =>
    intro h₂
    cases h₂ with
    | cons hs ht => exact List.Forall₂.cons (comp _ _ _ hr hs) (ih ht)

lemma forall2_mem_right {α β : Type} {R : α → β → Prop} :
    ∀ {l₁ : List α} {l₂ : List β}, List.Forall₂ R l₁ l₂ →
      ∀ r ∈ l₂, ∃ d ∈ l₁, R d r := by
  intro l₁ l₂ h
  induction h with
  | nil => intro r hr; simp at hr
  | cons hr _ ih =>
    intro r hmem
    rcases List.mem_cons.mp hmem with rfl | hmem
    · exact ⟨_, List.mem_cons_self _ _, hr⟩
    · obtain ⟨d, hd, hR⟩ := ih r hmem
      exact ⟨d, List.mem_cons_of_mem _ hd, hR⟩

lemma forall2_map_eq {α β γ : Type} {R : α → β → Prop} (f : α → γ) (g : β → γ)
    (h : ∀ a b, R a b → g b = f a) :
    ∀ {l₁ : List α} {l₂ : List β}, List.Forall₂ R l₁ l₂ → l₂.map g = l₁.map f := by
  intro l₁ l₂ hf
  induction hf with
  | nil => rfl
  | cons hr _ ih => simp [ih, h _ _ hr]

lemma forall2_set_self {α : Type} (R : α → α → Prop) (hrefl : ∀ x, R x x) :
    ∀ (l : List α) (i : Nat) (t a : α),
      l[i]? = some t → R t a → List.Forall₂ R l (l.set i a) := by
  intro l
  induction l with
  | nil => intro i t a hi; simp at hi
  | cons x xs ih =>
    intro i t a hi hR
    cases i with
    | zero =>
      simp only [List.getElem?_cons_zero, Option.some.injEq] at hi
      subst hi
      exact List.Forall₂.cons hR (List.forall₂_same.mpr fun y _ => hrefl y)
    | succ j =>
      exact List.Forall₂.cons (hrefl x) (ih j t a (by simpa using hi) hR)

lemma forall2_set_both {α β : Type} {R : α → β → Prop} :
    ∀ {l₁ : List α} {l₂ : List β}, List.Forall₂ R l₁ l₂ →
      ∀ (i : Nat) (a : α) (b : β), R a b →
        List.Forall₂ R (l₁.set i a) (l₂.set i b) := by
  intro l₁ l₂ h
  induction h with
  | nil => intro i a b _; exact List.Forall₂.nil
  | cons hr ht ih =>
    intro i a b hab
    cases i with
    | zero => exact List.Forall₂.cons hab ht
    | succ j => exact List.Forall₂.cons hr (ih j a b hab)

lemma map_set_self {α β : Type} (f : α → β) :
    ∀ (l : List α) (i : Nat) (t d' : α),
      l[i]? = some t → f d' = f t → (l.set i d').map f = l.map f := by
  intro l
  induction l with
  | nil => intro i t d' hi; simp at hi
  | cons x xs ih =>
    intro i t d' hi hf
    cases i with
    | zero =>
      simp only [List.getElem?_cons_zero, Option.some.injEq] at hi
      subst hi
      simp [hf]
    | succ j =>
      simp only [List.set_cons_succ, List.map_cons]
      rw [ih j t d' (by simpa using hi) hf]

lemma head?_mem {α : Type} {l : List α} {x : α} (h : l.head? = some x) : x ∈ l := by
  cases l with
  | nil => simp at h
  | cons a as =>
    simp only [List.head?_cons, Option.some.injEq] at h
    subst h
    exact List.mem_cons_self _ _

lemma withIdx_getElem? {α : Type} :
    ∀ (l : List α) (n i : Nat) (x : α),
      (i, x) ∈ withIdx n l → n ≤ i ∧ l[i - n]? = some x := by
  intro l
  induction l with
  | nil => intro n i x h; simp [withIdx] at h
  | cons z zs ih =>
    intro n i x h
    rcases List.mem_cons.mp h with heq | hmem
    · injection heq with h1 h2
      subst h1
      subst h2
      exact ⟨le_refl _, by simp⟩
    · obtain ⟨hle, hget⟩ := ih (n + 1) i x hmem
      refine ⟨le_trans (Nat.le_succ n) hle, ?_⟩
      have hidx : i - n = (i - (n + 1)) + 1 := by omega
      rw [hidx]
      simpa using hget

lemma updateFirstRecord_amount_sum (tid : Nat) (e nb : ℚ) (p : Bool) :
    ∀ (rs : List PaymentRecord), tid ∈ rs.map (fun r => r.debtId) →
      ((updateFirstRecord tid e nb p rs).map fun r => r.amount).sum =
        (rs.map fun r => r.amount).sum + e := by
  intro rs
  induction rs with
  | nil => intro h; simp at h
  | cons r rs ih =>
    intro hmem
    by_cases h : r.debtId = tid
    · simp only [updateFirstRecord, if_pos h, List.map_cons, List.sum_cons]
      ring
    · have hmem' : tid ∈ rs.map fun r => r.debtId := by
        rcases List.mem_cons.mp hmem with heq | hmem
        · exact absurd heq.symm h
        · exact hmem
      simp only [updateFirstRecord, if_neg h, List.map_cons, List.sum_cons, ih hmem']
      ring

lemma updateFirstRecord_set (e nb : ℚ) (p : Bool) :
    ∀ (ds : List WorkingDebt) (rs : List PaymentRecord) (i : Nat) (t : WorkingDebt),
      List.Forall₂ (fun d r => r.debtId = d.id) ds rs →
      ds[i]? = some t →
      (ds.map fun d => d.id).Nodup →
      ∃ r, rs[i]? = some r ∧
        updateFirstRecord t.id e nb p rs =
          rs.set i { r with amount := r.amount + e, remainingBalance := nb, isPaidOff := p } := by
  intro ds
  induction ds with
  | nil => intro rs i t _ hi; simp at hi
  | cons d ds ih =>
    intro rs i t hal hi hnd
    cases hal with
    | cons hdr hrest =>
      rename_i r₀ rs'
      cases i with
      | zero =>
        simp only [List.getElem?_cons_zero, Option.some.injEq] at hi
        subst hi
        refine ⟨r₀, by simp, ?_⟩
        simp [updateFirstRecord, hdr]
      | succ j =>
        have hget : ds[j]? = some t := by simpa using hi
        have hnd' : (ds.map fun d => d.id).Nodup := (List.nodup_cons.mp hnd).2
        have hnotin : d.id ∉ ds.map fun d => d.id := (List.nodup_cons.mp hnd).1
        have htmem : t ∈ ds := by
          have := List.getElem?_eq_some_iff.mp hget
          obtain ⟨hlt, hg⟩ := this
          exact hg ▸ List.getElem_mem _
        have htid : t.id ≠ d.id := by
          intro he
          exact hnotin (he ▸ List.mem_map_of_mem (fun d => d.id) htmem)
        obtain ⟨r, hr, heq⟩ := ih rs' j t hrest hget hnd'
        refine ⟨r, by simpa using hr, ?_⟩
        have hne : r₀.debtId ≠ t.id := by rw [hdr]; exact fun he => htid he.symm
        simp only [updateFirstRecord, if_neg hne, List.set_cons_succ, heq]

lemma withIdx_zero_getElem? {α : Type} {l : List α} {i : Nat} {x : α}
    (h : (i, x) ∈ withIdx 0 l) : l[i]? = some x := by
  have h2 := (withIdx_getElem? l 0 i x h).2
  simpa using h2

lemma debts1_map {β : Type} (f : WorkingDebt → β)
    (hf : ∀ d, f (payMinimumOne d).1 = f d) (ds : List WorkingDebt) :
    ((minimumPass ds).1.map f) = ds.map f := by
  simp only [minimumPass, List.map_map]
  exact List.map_congr_left fun d _ => hf d

lemma records1_map_debtId (ds : List WorkingDebt) :
    ((minimumPass ds).2.1.map fun r => r.debtId) = ds.map fun d => d.id := by
  simp only [minimumPass, List.map_map]
  exact List.map_congr_left fun d _ => payMinimumOne_record_id d

lemma applyExtra_spec (strategy : Strategy) (rb : ℚ) (ds : List WorkingDebt)
    (rs : List PaymentRecord) :
    applyExtra strategy rb ds rs = (ds, rs, 0) ∨
    (0 < rb ∧ ∃ i t, ds[i]? = some t ∧ t.isPaidOff = false ∧
      applyExtra strategy rb ds rs =
        (ds.set i { t with remainingBalance := t.remainingBalance - min rb t.remainingBalance, isPaidOff := decide (t.remainingBalance - min rb t.remainingBalance = 0) },
         updateFirstRecord t.id (min rb t.remainingBalance) (t.remainingBalance - min rb t.remainingBalance) (decide (t.remainingBalance - min rb t.remainingBalance = 0)) rs,
         min rb t.remainingBalance)) := by
  by_cases hpos : 0 < rb
  · cases hsel : selectTarget strategy ((withIdx 0 ds).filter fun p => !p.2.isPaidOff) with
    | none =>
      left
      simp [applyExtra, hsel, if_pos hpos]
    | some pair =>
      obtain ⟨i, t⟩ := pair
      right
      have hmem : (i, t) ∈ (withIdx 0 ds).filter fun p => !p.2.isPaidOff := by
        have hm : (i, t) ∈
            sortBy (pairLE strategy) ((withIdx 0 ds).filter fun p => !p.2.isPaidOff) :=
          head?_mem hsel
        exact (mem_sortBy _ _ _).mp hm
      refine ⟨hpos, i, t, withIdx_zero_getElem? (List.mem_filter.mp hmem).1, ?_, ?_⟩
      · have hb := (List.mem_filter.mp hmem).2
        simpa using hb
      · simp [applyExtra, hsel, if_pos hpos]
  · left
    simp [applyExtra, if_neg hpos]

lemma invC6_extend (s : SimState) (h : InvC6 s) (ds : List WorkingDebt)
    (recs : List PaymentRecord) (m : Nat) (tr ti tp : ℚ)
    (htp : tp = s.totalPaid + (recs.map fun r => r.amount).sum) :
    InvC6 { debts := ds, month := m, totalPaid := tp, totalInterestPaid := ti,
            schedule := s.schedule ++ [⟨s.month, recs, tr, tp, ti⟩] } := by
  obtain ⟨htot, hsnap⟩ := h
  have hsum : schedAmountSum (s.schedule ++ [⟨s.month, recs, tr, tp, ti⟩]) =
      schedAmountSum s.schedule + (recs.map fun r => r.amount).sum := by
    simp [schedAmountSum, amountSum]
  constructor
  · simpa [hsum, htot] using htp
  · intro k snap hk
    by_cases hlt : k < s.schedule.length
    · rw [List.getElem?_append_left hlt] at hk
      rw [List.take_append_of_le_length (by omega)]
      exact hsnap k snap hk
    · have hkeq : k = s.schedule.length := by
        by_contra hne
        have hge : s.schedule.length + 1 ≤ k := by omega
        rw [List.getElem?_eq_none] at hk
        · exact Option.noConfusion hk
        · simp
          omega
      subst hkeq
      have hx : snap = ⟨s.month, recs, tr, tp, ti⟩ := by
        rw [List.getElem?_append_right (le_refl _)] at hk
        simp at hk
        exact hk.symm
      subst hx
      have hlen : (s.schedule ++ [(⟨s.month, recs, tr, tp, ti⟩ : MonthlyPayment)]).length =
          s.schedule.length + 1 := by simp
      rw [List.take_of_length_le (by rw [hlen])]
      simp only [hsum]
      rw [htp, htot]

lemma mem_of_getElem_eq_some {α : Type} {l : List α} {i : Nat} {x : α}
    (h : l[i]? = some x) : x ∈ l := by
  obtain ⟨hlt, hg⟩ := List.getElem?_eq_some_iff.mp h
  exact hg ▸ List.getElem_mem _

lemma stepMonth_invC6 (strategy : Strategy) (b : ℚ) (s : SimState) (h : InvC6 s) :
    InvC6 (stepMonth strategy b s) := by
  rcases applyExtra_spec strategy
      (b - (((minimumPass s.debts).2.1.map fun p => p.amount).sum))
      (minimumPass s.debts).1 (minimumPass s.debts).2.1 with
    hcase | ⟨hpos, i, t, hget, hflag, hcase⟩
  · simp only [stepMonth, hcase]
    refine invC6_extend s h _ _ _ _ _ _ ?_
    ring
  · have hmem : t.id ∈ (minimumPass s.debts).2.1.map fun r => r.debtId := by
      rw [records1_map_debtId]
      have ht : t ∈ (minimumPass s.debts).1 := mem_of_getElem_eq_some hget
      have hid : (minimumPass s.debts).1.map (fun d => d.id) = s.debts.map fun d => d.id :=
        debts1_map _ payMinimumOne_id s.debts
      rw [← hid]
      exact List.mem_map_of_mem _ ht
    have hsum := updateFirstRecord_amount_sum t.id
      (min (b - (((minimumPass s.debts).2.1.map fun p => p.amount).sum)) t.remainingBalance)
      (t.remainingBalance -
        min (b - (((minimumPass s.debts).2.1.map fun p => p.amount).sum)) t.remainingBalance)
      (decide (t.remainingBalance -
        min (b - (((minimumPass s.debts).2.1.map fun p => p.amount).sum)) t.remainingBalance = 0))
      (minimumPass s.debts).2.1 hmem
    simp only [stepMonth, hcase]
    refine invC6_extend s h _ _ _ _ _ _ ?_
    rw [hsum]
    ring

lemma simLoop_invC6 (strategy : Strategy) (b : ℚ) :
    ∀ (f : Nat) (s : SimState), InvC6 s → InvC6 (simLoop strategy b f s) := by
  intro f
  induction f with
  | zero => intro s h; exact h
  | succ n ih =>
    intro s h
    rw [simLoop]
    split
    · exact ih _ (stepMonth_invC6 strategy b s h)
    · exact h

/-- Claim C6: for every input and every month index of the produced
schedule, the cumulative `totalPaid` stored in the snapshot equals the
sum of all per-debt `amount` fields over months 1 through that month. -/
theorem c6_conservation (debts : List Debt) (b : ℚ) (strategy : Strategy) :
    ∀ (k : Nat) (snap : MonthlyPayment),
      (calculatePaymentPlan debts b strategy).paymentSchedule[k]? = some snap →
      snap.totalPaid =
        schedAmountSum ((calculatePaymentPlan debts b strategy).paymentSchedule.take (k + 1)) := by
  have h := simLoop_invC6 strategy b 600
    { debts := debts.map initWorking, month := 1,
      totalPaid := 0, totalInterestPaid := 0, schedule := [] }
    ⟨by simp [schedAmountSum], by intro k snap hk; simp at hk⟩
  exact h.2

/-- Witness for claim C6 at a one-month run. -/
theorem c6_witness :
    (calculatePaymentPlan [⟨1, "w", 100, 0, 100⟩] 100 .avalanche).paymentSchedule[0]? =
      some ⟨1, [⟨1, 100, 0, true⟩], 0, 100, 0⟩ ∧
    (⟨1, [⟨1, 100, 0, true⟩], 0, 100, 0⟩ : MonthlyPayment).totalPaid =
      schedAmountSum
        ((calculatePaymentPlan [⟨1, "w", 100, 0, 100⟩] 100 .avalanche).paymentSchedule.take 1) :=
  ⟨by with_unfolding_all rfl,
   c6_conservation [⟨1, "w", 100, 0, 100⟩] 100 .avalanche 0 _ (by with_unfolding_all rfl)⟩

lemma target_id_mem_records (ds : List WorkingDebt) {i : Nat} {t : WorkingDebt}
    (hget : (minimumPass ds).1[i]? = some t) :
    t.id ∈ (minimumPass ds).2.1.map fun r => r.debtId := by
  rw [records1_map_debtId]
  have ht : t ∈ (minimumPass ds).1 := mem_of_getElem_eq_some hget
  have hid : ((minimumPass ds).1.map fun d => d.id) = ds.map fun d => d.id :=
    debts1_map _ payMinimumOne_id ds
  rw [← hid]
  exact List.mem_map_of_mem _ ht

lemma invC10_extend (orig : List Debt) (b : ℚ) (s : SimState) (h : InvC10 orig b s)
    (ds : List WorkingDebt) (recs : List PaymentRecord) (m : Nat) (tr ti tp : ℚ)
    (hmp : (ds.map fun d => d.minimumPayment) = orig.map fun d => d.minimumPayment)
    (hsum : (recs.map fun r => r.amount).sum ≤ b) :
    InvC10 orig b { debts := ds, month := m, totalPaid := tp, totalInterestPaid := ti,
                    schedule := s.schedule ++ [⟨s.month, recs, tr, tp, ti⟩] } := by
  refine ⟨hmp, ?_⟩
  intro snap hmem
  rcases List.mem_append.mp hmem with hmem | hmem
  · exact h.2 snap hmem
  · rcases List.mem_singleton.mp hmem with rfl
    simpa [amountSum] using hsum

lemma stepMonth_invC10 (orig : List Debt) (strategy : Strategy) (b : ℚ) (s : SimState)
    (hnn : ∀ d ∈ orig, 0 ≤ d.minimumPayment)
    (hbud : (orig.map fun d => d.minimumPayment).sum ≤ b)
    (h : InvC10 orig b s) : InvC10 orig b (stepMonth strategy b s) := by
  have hmpnn : ∀ d ∈ s.debts, 0 ≤ d.minimumPayment := by
    intro d hd
    have hm : d.minimumPayment ∈ s.debts.map fun d => d.minimumPayment :=
      List.mem_map_of_mem _ hd
    rw [h.1] at hm
    obtain ⟨o, ho, hoe⟩ := List.mem_map.mp hm
    exact hoe ▸ hnn o ho
  have hpd : (((minimumPass s.debts).2.1.map fun p => p.amount).sum) ≤ b := by
    have h1 : ((minimumPass s.debts).2.1.map fun p => p.amount) =
        s.debts.map fun d => (payMinimumOne d).2.1.amount := by
      simp [minimumPass, List.map_map]
    have h2 : (s.debts.map fun d => (payMinimumOne d).2.1.amount).sum ≤
        (s.debts.map fun d => d.minimumPayment).sum :=
      List.sum_le_sum fun d hd => payMinimumOne_amount_le d (hmpnn d hd)
    rw [h1]
    calc (s.debts.map fun d => (payMinimumOne d).2.1.amount).sum
        ≤ (s.debts.map fun d => d.minimumPayment).sum := h2
      _ = (orig.map fun d => d.minimumPayment).sum := by rw [h.1]
      _ ≤ b := hbud
  have hmp1 : ((minimumPass s.debts).1.map fun d => d.minimumPayment) =
      orig.map fun d => d.minimumPayment := by
    rw [debts1_map _ payMinimumOne_minimumPayment, h.1]
  rcases applyExtra_spec strategy
      (b - (((minimumPass s.debts).2.1.map fun p => p.amount).sum))
      (minimumPass s.debts).1 (minimumPass s.debts).2.1 with
    hcase | ⟨hpos, i, t, hget, hflag, hcase⟩
  · simp only [stepMonth, hcase]
    exact invC10_extend orig b s h _ _ _ _ _ _ hmp1 hpd
  · have hsum := updateFirstRecord_amount_sum t.id
      (min (b - (((minimumPass s.debts).2.1.map fun p => p.amount).sum)) t.remainingBalance)
      (t.remainingBalance -
        min (b - (((minimumPass s.debts).2.1.map fun p => p.amount).sum)) t.remainingBalance)
      (decide (t.remainingBalance -
        min (b - (((minimumPass s.debts).2.1.map fun p => p.amount).sum)) t.remainingBalance = 0))
      (minimumPass s.debts).2.1 (target_id_mem_records s.debts hget)
    simp only [stepMonth, hcase]
    refine invC10_extend orig b s h _ _ _ _ _ _ ?_ ?_
    · have hms := map_set_self (fun d : WorkingDebt => d.minimumPayment)
        (minimumPass s.debts).1 i t
        { t with remainingBalance := t.remainingBalance - min (b - (((minimumPass s.debts).2.1.map fun p => p.amount).sum)) t.remainingBalance, isPaidOff := decide (t.remainingBalance - min (b - (((minimumPass s.debts).2.1.map fun p => p.amount).sum)) t.remainingBalance = 0) }
        hget rfl
      rw [hms]
      exact hmp1
    · rw [hsum]
      have hminle : min (b - (((minimumPass s.debts).2.1.map fun p => p.amount).sum))
          t.remainingBalance ≤
          b - (((minimumPass s.debts).2.1.map fun p => p.amount).sum) := min_le_left _ _
      linarith

lemma simLoop_invC10 (orig : List Debt) (strategy : Strategy) (b : ℚ)
    (hnn : ∀ d ∈ orig, 0 ≤ d.minimumPayment)
    (hbud : (orig.map fun d => d.minimumPayment).sum ≤ b) :
    ∀ (f : Nat) (s : SimState), InvC10 orig b s → InvC10 orig b (simLoop strategy b f s) := by
  intro f
  induction f with
  | zero => intro s h; exact h
  | succ n ih =>
    intro s h
    rw [simLoop]
    split
    · exact ih _ (stepMonth_invC10 orig strategy b s hnn hbud h)
    · exact h

/-- Claim C10: when the budget covers the sum of all (non-negative)
minimum payments, no month of the schedule spends more than the monthly
budget in recorded payment amounts. -/
theorem c10_budget (debts : List Debt) (b : ℚ) (strategy : Strategy)
    (hnn : ∀ d ∈ debts, 0 ≤ d.minimumPayment)
    (hbud : (debts.map fun d => d.minimumPayment).sum ≤ b) :
    ∀ snap ∈ (calculatePaymentPlan debts b strategy).paymentSchedule, amountSum snap ≤ b := by
  have hinit : ((debts.map initWorking).map fun d => d.minimumPayment) =
      debts.map fun d => d.minimumPayment := by
    rw [List.map_map]
    exact List.map_congr_left fun d _ => rfl
  have h := simLoop_invC10 debts strategy b hnn hbud 600
    { debts := debts.map initWorking, month := 1,
      totalPaid := 0, totalInterestPaid := 0, schedule := [] }
    ⟨hinit, by intro snap hs; simp at hs⟩
  exact h.2

/-- Witness for claim C10 at a one-month run. -/
theorem c10_witness :
    ((∀ d ∈ [(⟨1, "w", 100, 0, 100⟩ : Debt)], 0 ≤ d.minimumPayment) ∧
      (([(⟨1, "w", 100, 0, 100⟩ : Debt)].map fun d => d.minimumPayment).sum ≤ 100)) ∧
    ∀ snap ∈ (calculatePaymentPlan [⟨1, "w", 100, 0, 100⟩] 100 .avalanche).paymentSchedule,
      amountSum snap ≤ 100 :=
  ⟨⟨by intro d hd; rcases List.mem_singleton.mp hd with rfl; norm_num, by simp⟩,
   c10_budget [⟨1, "w", 100, 0, 100⟩] 100 .avalanche
     (by intro d hd; rcases List.mem_singleton.mp hd with rfl; norm_num) (by simp)⟩

lemma forall2_map_map {α β γ : Type} (R : β → γ → Prop) (f : α → β) (g : α → γ) :
    ∀ (l : List α), (∀ x ∈ l, R (f x) (g x)) →
      List.Forall₂ R (l.map f) (l.map g) := by
  intro l
  induction l with
  | nil => intro _; exact List.Forall₂.nil
  | cons x xs ih =>
    intro h
    exact List.Forall₂.cons (h x (List.mem_cons_self _ _))
      (ih fun y hy => h y (List.mem_cons_of_mem _ hy))

lemma forall2_flip {α β : Type} {R : α → β → Prop} :
    ∀ {l₁ : List α} {l₂ : List β}, List.Forall₂ R l₁ l₂ →
      List.Forall₂ (fun b a => R a b) l₂ l₁ := by
  intro l₁ l₂ h
  induction h with
  | nil => exact List.Forall₂.nil
  | cons hr _ ih => exact List.Forall₂.cons hr ih

lemma forall2_getElem? {α β : Type} {R : α → β → Prop} :
    ∀ {l₁ : List α} {l₂ : List β}, List.Forall₂ R l₁ l₂ →
      ∀ {i : Nat} {a : α} {b : β}, l₁[i]? = some a → l₂[i]? = some b → R a b := by
  intro l₁ l₂ h
  induction h with
  | nil => intro i a b ha; simp at ha
  | cons hr _ ih =>
    intro i a b ha hb
    cases i with
    | zero =>
      simp only [List.getElem?_cons_zero, Option.some.injEq] at ha hb
      subst ha
      subst hb
      exact hr
    | succ j => exact ih (by simpa using ha) (by simpa using hb)

lemma minimumPass_align (ds : List WorkingDebt) (hok : ∀ d ∈ ds, Ok d) :
    List.Forall₂ Align (minimumPass ds).1 (minimumPass ds).2.1 :=
  forall2_map_map Align _ _ ds fun d hd => payMinimumOne_align d ((hok d hd).2)

lemma minimumPass_mono (ds : List WorkingDebt) (hok : ∀ d ∈ ds, Ok d) :
    List.Forall₂ Mono ds (minimumPass ds).1 :=
  forall2_map_self Mono _ ds fun d hd =>
    ⟨(payMinimumOne_mono d (hok d hd).1).1, payMinimumOne_flag_mono d⟩

lemma minimumPass_ok (ds : List WorkingDebt) (hok : ∀ d ∈ ds, Ok d) :
    ∀ d ∈ (minimumPass ds).1, Ok d := by
  intro d hd
  obtain ⟨x, hx, rfl⟩ := List.mem_map.mp hd
  exact payMinimumOne_ok x (hok x hx)

lemma invC5_extend (orig : List Debt) (s : SimState) (h : InvC5 orig s)
    (ds2 : List WorkingDebt) (recs : List PaymentRecord) (m : Nat) (tr ti tp : ℚ)
    (hids2 : (ds2.map fun d => d.id) = orig.map fun d => d.id)
    (hok2 : ∀ d ∈ ds2, Ok d)
    (hmono : List.Forall₂ Mono s.debts ds2)
    (halign : List.Forall₂ Align ds2 recs) :
    InvC5 orig { debts := ds2, month := m, totalPaid := tp, totalInterestPaid := ti,
                 schedule := s.schedule ++ [⟨s.month, recs, tr, tp, ti⟩] } := by
  obtain ⟨hids, hok, hchain, hsnaps, hlast⟩ := h
  refine ⟨hids2, hok2, ?_, ?_, ?_⟩
  · refine List.Chain'.append hchain (List.chain'_singleton _) ?_
    intro x hx y hy
    simp only [List.head?_cons, Option.mem_def, Option.some.injEq] at hy
    subst hy
    have hlx : List.Forall₂ Align s.debts x.payments := hlast x (Option.mem_def.mp hx)
    have h1 : List.Forall₂ (fun (r : PaymentRecord) (d : WorkingDebt) => Align d r)
        x.payments s.debts := forall2_flip hlx
    have h2 : List.Forall₂
        (fun (r : PaymentRecord) (d2 : WorkingDebt) =>
          d2.remainingBalance ≤ r.remainingBalance ∧
            (r.isPaidOff = true → d2.isPaidOff = true))
        x.payments ds2 := by
      refine forall2_trans ?_ h1 hmono
      intro r d d2 hal hm
      exact ⟨hal.2.1 ▸ hm.1, fun hf => hm.2 (hal.2.2 ▸ hf)⟩
    refine forall2_trans ?_ h2 halign
    intro r d2 r2 hm hal
    exact ⟨hal.2.1 ▸ hm.1, fun hf => hal.2.2 ▸ hm.2 hf⟩
  · intro snap hmem
    rcases List.mem_append.mp hmem with hmem | hmem
    · exact hsnaps snap hmem
    · rcases List.mem_singleton.mp hmem with rfl
      constructor
      · have hmapeq : (recs.map fun r => r.debtId) = ds2.map fun d => d.id :=
          forall2_map_eq (fun d => d.id) (fun r => r.debtId) (fun a b hab => hab.1) halign
        rw [hmapeq, hids2]
      · intro r hr hflag
        obtain ⟨d, hd, hAl⟩ := forall2_mem_right halign r hr
        have hdz : d.remainingBalance = 0 := (hok2 d hd).2 (hAl.2.2 ▸ hflag)
        rw [hAl.2.1, hdz]
  · intro snap hsnap
    rw [List.getLast?_concat] at hsnap
    rcases Option.some.injEq .. ▸ hsnap with rfl
    exact halign

lemma stepMonth_invC5 (orig : List Debt) (strategy : Strategy) (b : ℚ) (s : SimState)
    (hnodup : (orig.map fun d => d.id).Nodup)
    (h : InvC5 orig s) : InvC5 orig (stepMonth strategy b s) := by
  have hok1 : ∀ d ∈ (minimumPass s.debts).1, Ok d := minimumPass_ok _ h.2.1
  have halign1 : List.Forall₂ Align (minimumPass s.debts).1 (minimumPass s.debts).2.1 :=
    minimumPass_align _ h.2.1
  have hmono1 : List.Forall₂ Mono s.debts (minimumPass s.debts).1 :=
    minimumPass_mono _ h.2.1
  have hids1 : ((minimumPass s.debts).1.map fun d => d.id) = orig.map fun d => d.id := by
    rw [debts1_map _ payMinimumOne_id, h.1]
  rcases applyExtra_spec strategy
      (b - (((minimumPass s.debts).2.1.map fun p => p.amount).sum))
      (minimumPass s.debts).1 (minimumPass s.debts).2.1 with
    hcase | ⟨hpos, i, t, hget, hflag, hcase⟩
  · simp only [stepMonth, hcase]
    exact invC5_extend orig s h _ _ _ _ _ _ hids1 hok1 hmono1 halign1
  · have h0t : 0 ≤ t.remainingBalance := (hok1 t (mem_of_getElem_eq_some hget)).1
    have hex0 : 0 ≤ min (b - (((minimumPass s.debts).2.1.map fun p => p.amount).sum))
        t.remainingBalance := le_min (le_of_lt hpos) h0t
    have hnb0 : 0 ≤ t.remainingBalance -
        min (b - (((minimumPass s.debts).2.1.map fun p => p.amount).sum))
          t.remainingBalance := by
      have hle := min_le_right
        (b - (((minimumPass s.debts).2.1.map fun p => p.amount).sum)) t.remainingBalance
      linarith
    have hnble : t.remainingBalance -
        min (b - (((minimumPass s.debts).2.1.map fun p => p.amount).sum))
          t.remainingBalance ≤ t.remainingBalance := by linarith
    have hmonotd : Mono t { t with remainingBalance := t.remainingBalance - min (b - (((minimumPass s.debts).2.1.map fun p => p.amount).sum)) t.remainingBalance, isPaidOff := decide (t.remainingBalance - min (b - (((minimumPass s.debts).2.1.map fun p => p.amount).sum)) t.remainingBalance = 0) } := by
      refine ⟨hnble, fun hfl => ?_⟩
      rw [hflag] at hfl
      exact absurd hfl (by simp)
    have hokd : Ok { t with remainingBalance := t.remainingBalance - min (b - (((minimumPass s.debts).2.1.map fun p => p.amount).sum)) t.remainingBalance, isPaidOff := decide (t.remainingBalance - min (b - (((minimumPass s.debts).2.1.map fun p => p.amount).sum)) t.remainingBalance = 0) } :=
      ⟨hnb0, fun hp => of_decide_eq_true hp⟩
    have hok2 : ∀ d ∈ (minimumPass s.debts).1.set i { t with remainingBalance := t.remainingBalance - min (b - (((minimumPass s.debts).2.1.map fun p => p.amount).sum)) t.remainingBalance, isPaidOff := decide (t.remainingBalance - min (b - (((minimumPass s.debts).2.1.map fun p => p.amount).sum)) t.remainingBalance = 0) }, Ok d := by
      intro d hd
      rcases List.mem_or_eq_of_mem_set hd with hmem | rfl
      · exact hok1 d hmem
      · exact hokd
    have hmono2 : List.Forall₂ Mono (minimumPass s.debts).1
        ((minimumPass s.debts).1.set i { t with remainingBalance := t.remainingBalance - min (b - (((minimumPass s.debts).2.1.map fun p => p.amount).sum)) t.remainingBalance, isPaidOff := decide (t.remainingBalance - min (b - (((minimumPass s.debts).2.1.map fun p => p.amount).sum)) t.remainingBalance = 0) }) :=
      forall2_set_self Mono (fun d => ⟨le_refl _, fun hf => hf⟩) _ i t _ hget hmonotd
    have hids2 : (((minimumPass s.debts).1.set i { t with remainingBalance := t.remainingBalance - min (b - (((minimumPass s.debts).2.1.map fun p => p.amount).sum)) t.remainingBalance, isPaidOff := decide (t.remainingBalance - min (b - (((minimumPass s.debts).2.1.map fun p => p.amount).sum)) t.remainingBalance = 0) }).map fun d => d.id) = orig.map fun d => d.id := by
      have hms := map_set_self (fun d : WorkingDebt => d.id) (minimumPass s.debts).1 i t
        { t with remainingBalance := t.remainingBalance - min (b - (((minimumPass s.debts).2.1.map fun p => p.amount).sum)) t.remainingBalance, isPaidOff := decide (t.remainingBalance - min (b - (((minimumPass s.debts).2.1.map fun p => p.amount).sum)) t.remainingBalance = 0) }
        hget rfl
      rw [hms, hids1]
    have halId : List.Forall₂ (fun d (r : PaymentRecord) => r.debtId = d.id)
        (minimumPass s.debts).1 (minimumPass s.debts).2.1 :=
      halign1.imp fun a b hab => hab.1
    have hnodup1 : ((minimumPass s.debts).1.map fun d => d.id).Nodup := by
      rw [hids1]
      exact hnodup
    obtain ⟨r, hr, hupd⟩ := updateFirstRecord_set
      (min (b - (((minimumPass s.debts).2.1.map fun p => p.amount).sum)) t.remainingBalance)
      (t.remainingBalance -
        min (b - (((minimumPass s.debts).2.1.map fun p => p.amount).sum)) t.remainingBalance)
      (decide (t.remainingBalance -
        min (b - (((minimumPass s.debts).2.1.map fun p => p.amount).sum)) t.remainingBalance = 0))
      (minimumPass s.debts).1 (minimumPass s.debts).2.1 i t halId hget hnodup1
    have hAtr : Align t r := forall2_getElem? halign1 hget hr
    have halign2 : List.Forall₂ Align
        ((minimumPass s.debts).1.set i { t with remainingBalance := t.remainingBalance - min (b - (((minimumPass s.debts).2.1.map fun p => p.amount).sum)) t.remainingBalance, isPaidOff := decide (t.remainingBalance - min (b - (((minimumPass s.debts).2.1.map fun p => p.amount).sum)) t.remainingBalance = 0) })
        (updateFirstRecord t.id
          (min (b - (((minimumPass s.debts).2.1.map fun p => p.amount).sum)) t.remainingBalance)
          (t.remainingBalance -
            min (b - (((minimumPass s.debts).2.1.map fun p => p.amount).sum)) t.remainingBalance)
          (decide (t.remainingBalance -
            min (b - (((minimumPass s.debts).2.1.map fun p => p.amount).sum)) t.remainingBalance = 0))
          (minimumPass s.debts).2.1) := by
      rw [hupd]
      refine forall2_set_both halign1 i _ _ ?_
      exact ⟨by simp [hAtr.1], rfl, rfl⟩
    simp only [stepMonth, hcase]
    exact invC5_extend orig s h _ _ _ _ _ _ hids2 hok2
      (forall2_trans (fun a c d hac hcd =>
        ⟨le_trans hcd.1 hac.1, fun hf => hcd.2 (hac.2 hf)⟩) hmono1 hmono2) halign2

lemma simLoop_invC5 (orig : List Debt) (strategy : Strategy) (b : ℚ)
    (hnodup : (orig.map fun d => d.id).Nodup) :
    ∀ (f : Nat) (s : SimState), InvC5 orig s → InvC5 orig (simLoop strategy b f s) := by
  intro f
  induction f with
  | zero => intro s h; exact h
  | succ n ih =>
    intro s h
    rw [simLoop]
    split
    · exact ih _ (stepMonth_invC5 orig strategy b s hnodup h)
    · exact h

/-- Claim C5: under the spec's preconditions (non-empty debts,
non-negative fields, feasible budget, unique ids), every debt's
`remainingBalance` sequence across the months of the schedule is
non-increasing, its `isPaidOff` flag never reverts, each month's record
list carries the debt ids in input order, and any record flagged paid
off has balance exactly 0 (so the balance is 0 from the first flagged
month on). -/
theorem c5_monotone (debts : List Debt) (b : ℚ) (strategy : Strategy)
    (_hne : debts ≠ [])
    (hfields : ∀ d ∈ debts, 0 ≤ d.balance ∧ 0 ≤ d.interestRate ∧ 0 ≤ d.minimumPayment)
    (_hbud : (debts.map fun d => d.minimumPayment).sum ≤ b)
    (hnodup : (debts.map fun d => d.id).Nodup) :
    List.Chain' recStep (calculatePaymentPlan debts b strategy).paymentSchedule ∧
    ∀ snap ∈ (calculatePaymentPlan debts b strategy).paymentSchedule,
      (snap.payments.map fun r => r.debtId) = (debts.map fun d => d.id) ∧
      ∀ r ∈ snap.payments, r.isPaidOff = true → r.remainingBalance = 0 := by
  have hinit : InvC5 debts
      { debts := debts.map initWorking, month := 1,
        totalPaid := 0, totalInterestPaid := 0, schedule := [] } := by
    refine ⟨?_, ?_, ?_, ?_, ?_⟩
    · rw [List.map_map]
      exact List.map_congr_left fun d _ => rfl
    · intro d hd
      obtain ⟨x, hx, rfl⟩ := List.mem_map.mp hd
      exact ⟨(hfields x hx).1, fun hf => absurd hf (by simp [initWorking])⟩
    · exact List.chain'_nil
    · intro snap hs
      simp at hs
    · intro snap hs
      simp at hs
  have h := simLoop_invC5 debts strategy b hnodup 600
    { debts := debts.map initWorking, month := 1,
      totalPaid := 0, totalInterestPaid := 0, schedule := [] } hinit
  exact ⟨h.2.2.1, h.2.2.2.1⟩

/-- Witness for claim C5 at a one-month run. -/
theorem c5_witness :
    ([(⟨1, "w", 100, 0, 100⟩ : Debt)] ≠ [] ∧
      (∀ d ∈ [(⟨1, "w", 100, 0, 100⟩ : Debt)],
        0 ≤ d.balance ∧ 0 ≤ d.interestRate ∧ 0 ≤ d.minimumPayment) ∧
      (([(⟨1, "w", 100, 0, 100⟩ : Debt)].map fun d => d.minimumPayment).sum ≤ 100) ∧
      ([(⟨1, "w", 100, 0, 100⟩ : Debt)].map fun d => d.id).Nodup) ∧
    (List.Chain' recStep
      (calculatePaymentPlan [⟨1, "w", 100, 0, 100⟩] 100 .avalanche).paymentSchedule ∧
    ∀ snap ∈ (calculatePaymentPlan [⟨1, "w", 100, 0, 100⟩] 100 .avalanche).paymentSchedule,
      (snap.payments.map fun r => r.debtId) =
        ([(⟨1, "w", 100, 0, 100⟩ : Debt)].map fun d => d.id) ∧
      ∀ r ∈ snap.payments, r.isPaidOff = true → r.remainingBalance = 0) :=
  ⟨⟨by simp,
    by intro d hd; rcases List.mem_singleton.mp hd with rfl; refine ⟨by norm_num, by norm_num, by norm_num⟩,
    by simp, by simp⟩,
   c5_monotone [⟨1, "w", 100, 0, 100⟩] 100 .avalanche (by simp)
     (by intro d hd; rcases List.mem_singleton.mp hd with rfl; exact ⟨by norm_num, by norm_num, by norm_num⟩)
     (by simp) (by simp)⟩

lemma getLast?_mem {α : Type} : ∀ {l : List α} {x : α}, l.getLast? = some x → x ∈ l := by
  intro l
  induction l with
  | nil => intro x h; simp at h
  | cons a as ih =>
    intro x h
    cases as with
    | nil =>
      simp only [List.getLast?_singleton, Option.some.injEq] at h
      subst h
      exact List.mem_cons_self _ _
    | cons b bs =>
      rw [List.getLast?_cons_cons] at h
      exact List.mem_cons_of_mem _ (ih h)

lemma calculatePaymentPlan_totalMonths (debts : List Debt) (b : ℚ) (strategy : Strategy) :
    (calculatePaymentPlan debts b strategy).totalMonths =
      (calculatePaymentPlan debts b strategy).paymentSchedule.length := rfl

set_option maxRecDepth 100000 in
set_option maxHeartbeats 4000000 in
lemma runA_probe :
    probe (calculatePaymentPlan [⟨1, "A", 601, 0, 0⟩] 1 .avalanche) =
      (600, true, some 1, some false) := by
  with_unfolding_all rfl

set_option maxRecDepth 100000 in
set_option maxHeartbeats 4000000 in
lemma runB_probe :
    probe (calculatePaymentPlan [⟨1, "B", 600, 0, 0⟩] 1 .avalanche) =
      (600, false, some 0, some true) := by
  with_unfolding_all rfl

lemma runA_not_payoff :
    ¬ reachesFullPayoff (calculatePaymentPlan [⟨1, "A", 601, 0, 0⟩] 1 .avalanche) := by
  rintro ⟨snap, hmem, hall⟩
  have hall2 : ((calculatePaymentPlan [⟨1, "A", 601, 0, 0⟩] 1 .avalanche).paymentSchedule.all
      fun snap => snap.payments.any fun rec => !rec.isPaidOff) = true :=
    congrArg (fun x => x.2.1) runA_probe
  have h1 := List.all_eq_true.mp hall2 snap hmem
  obtain ⟨rec, hrec, hnp⟩ := List.any_eq_true.mp h1
  rw [hall rec hrec] at hnp
  simp at hnp

lemma runB_payoff :
    reachesFullPayoff (calculatePaymentPlan [⟨1, "B", 600, 0, 0⟩] 1 .avalanche) := by
  have h4 : ((calculatePaymentPlan [⟨1, "B", 600, 0, 0⟩] 1 .avalanche).paymentSchedule.getLast?.map
      fun s => s.payments.all fun rec => rec.isPaidOff) = some true :=
    congrArg (fun x => x.2.2.2) runB_probe
  obtain ⟨snap, hsnap, hallb⟩ := Option.map_eq_some'.mp h4
  exact ⟨snap, getLast?_mem hsnap, fun rec hrec => List.all_eq_true.mp hallb rec hrec⟩

/-- Claim C1 is false on the code: the single debt with balance 601,
rate 0 and minimum payment 0 under budget 1 satisfies the claim's
hypotheses (budget strictly above the total minimum payments, rates
non-negative), yet only 1 per month is ever paid, so after the 600
month cap a balance of 1 remains and no month records full payoff. -/
theorem c1_counterexample :
    ((([(⟨1, "A", 601, 0, 0⟩ : Debt)].map fun d => d.minimumPayment).sum < 1) ∧
      (∀ d ∈ [(⟨1, "A", 601, 0, 0⟩ : Debt)], 0 ≤ d.interestRate)) ∧
    ¬ reachesFullPayoff (calculatePaymentPlan [⟨1, "A", 601, 0, 0⟩] 1 .avalanche) :=
  ⟨⟨by simp, by intro d hd; rcases List.mem_singleton.mp hd with rfl; norm_num⟩,
   runA_not_payoff⟩

/-- Claim C3 is false on the code: when the 600-month cap is hit the
engine returns only the plain schedule and totals, with no
non-convergence marker.  A non-converged run (balance 601) and a run
that converges exactly at month 600 (balance 600) return the same
caller-facing summary `totalMonths = 600`; non-convergence is visible
only inside the schedule itself (final `totalRemaining` is 1, not 0). -/
theorem c3_counterexample :
    (calculatePaymentPlan [⟨1, "A", 601, 0, 0⟩] 1 .avalanche).totalMonths = 600 ∧
    (calculatePaymentPlan [⟨1, "B", 600, 0, 0⟩] 1 .avalanche).totalMonths = 600 ∧
    ¬ reachesFullPayoff (calculatePaymentPlan [⟨1, "A", 601, 0, 0⟩] 1 .avalanche) ∧
    reachesFullPayoff (calculatePaymentPlan [⟨1, "B", 600, 0, 0⟩] 1 .avalanche) ∧
    ((calculatePaymentPlan [⟨1, "A", 601, 0, 0⟩] 1 .avalanche).paymentSchedule.getLast?.map
      fun s => s.totalRemaining) = some 1 := by
  refine ⟨congrArg (fun x => x.1) runA_probe, congrArg (fun x => x.1) runB_probe,
    runA_not_payoff, runB_payoff, congrArg (fun x => x.2.2.1) runA_probe⟩

/-- Claim C3 (amended): on cap overrun the engine does return the
partial schedule accumulated so far - 600 snapshots, the last with
`totalRemaining` still positive - but with no explicit signal: the
result holds nothing beyond the schedule and totals derived from it
(`totalMonths` is just the schedule length), so non-convergence can be
detected only by inspecting the final snapshot. -/
theorem c3_partial_schedule :
    (calculatePaymentPlan [⟨1, "A", 601, 0, 0⟩] 1 .avalanche).paymentSchedule.length = 600 ∧
    (calculatePaymentPlan [⟨1, "A", 601, 0, 0⟩] 1 .avalanche).totalMonths =
      (calculatePaymentPlan [⟨1, "A", 601, 0, 0⟩] 1 .avalanche).paymentSchedule.length ∧
    ((calculatePaymentPlan [⟨1, "A", 601, 0, 0⟩] 1 .avalanche).paymentSchedule.getLast?.map
      fun s => s.totalRemaining) = some 1 ∧
    ¬ reachesFullPayoff (calculatePaymentPlan [⟨1, "A", 601, 0, 0⟩] 1 .avalanche) := by
  refine ⟨?_, rfl, congrArg (fun x => x.2.2.1) runA_probe, runA_not_payoff⟩
  rw [← calculatePaymentPlan_totalMonths]
  exact congrArg (fun x => x.1) runA_probe

/-- Claim C8: a debt whose minimum payment alone exceeds its remaining
balance plus this month's interest is cleared by the minimum-payment
pass in that single month: the payment is clamped to exactly
`remainingBalance + interestThisMonth`, and both the working debt and
its record end the month with balance exactly 0 and the paid-off flag
set. -/
theorem c8_single_month_clamp (d : WorkingDebt)
    (hoff : d.isPaidOff = false)
    (hrb : 0 ≤ d.remainingBalance)
    (hmp : d.remainingBalance + d.remainingBalance * (d.interestRate / 100 / 12) <
      d.minimumPayment) :
    (payMinimumOne d).2.1.amount =
      d.remainingBalance + d.remainingBalance * (d.interestRate / 100 / 12) ∧
    (payMinimumOne d).1.remainingBalance = 0 ∧
    (payMinimumOne d).1.isPaidOff = true ∧
    (payMinimumOne d).2.1.remainingBalance = 0 ∧
    (payMinimumOne d).2.1.isPaidOff = true := by
  have hle : d.remainingBalance + d.remainingBalance * (d.interestRate / 100 / 12) ≤
      d.minimumPayment := le_of_lt hmp
  have hmin : min d.minimumPayment
      (d.remainingBalance + d.remainingBalance * (d.interestRate / 100 / 12)) =
      d.remainingBalance + d.remainingBalance * (d.interestRate / 100 / 12) :=
    min_eq_right hle
  have hcancel : d.remainingBalance + d.remainingBalance * (d.interestRate / 100 / 12) -
      d.remainingBalance * (d.interestRate / 100 / 12) = d.remainingBalance := by ring
  have hmax : max 0 d.remainingBalance = d.remainingBalance := max_eq_right hrb
  simp only [payMinimumOne, hoff, Bool.false_eq_true, if_false, hmin, hcancel, hmax,
    sub_self]
  norm_num

/-- Witness for claim C8: balance 100, rate 0, minimum payment 500. -/
theorem c8_witness :
    ((⟨1, "w", 100, 0, 500, 100, false⟩ : WorkingDebt).isPaidOff = false ∧
      0 ≤ (⟨1, "w", 100, 0, 500, 100, false⟩ : WorkingDebt).remainingBalance ∧
      (⟨1, "w", 100, 0, 500, 100, false⟩ : WorkingDebt).remainingBalance +
        (⟨1, "w", 100, 0, 500, 100, false⟩ : WorkingDebt).remainingBalance *
          ((⟨1, "w", 100, 0, 500, 100, false⟩ : WorkingDebt).interestRate / 100 / 12) <
        (⟨1, "w", 100, 0, 500, 100, false⟩ : WorkingDebt).minimumPayment) ∧
    ((payMinimumOne ⟨1, "w", 100, 0, 500, 100, false⟩).2.1.amount =
      (⟨1, "w", 100, 0, 500, 100, false⟩ : WorkingDebt).remainingBalance +
        (⟨1, "w", 100, 0, 500, 100, false⟩ : WorkingDebt).remainingBalance *
          ((⟨1, "w", 100, 0, 500, 100, false⟩ : WorkingDebt).interestRate / 100 / 12) ∧
    (payMinimumOne ⟨1, "w", 100, 0, 500, 100, false⟩).1.remainingBalance = 0 ∧
    (payMinimumOne ⟨1, "w", 100, 0, 500, 100, false⟩).1.isPaidOff = true ∧
    (payMinimumOne ⟨1, "w", 100, 0, 500, 100, false⟩).2.1.remainingBalance = 0 ∧
    (payMinimumOne ⟨1, "w", 100, 0, 500, 100, false⟩).2.1.isPaidOff = true) :=
  ⟨⟨rfl, by norm_num, by norm_num⟩,
   c8_single_month_clamp ⟨1, "w", 100, 0, 500, 100, false⟩ rfl (by norm_num) (by norm_num)⟩

end DebtPlan
